import Mathlib

/-!
# TabCaster: verification of the capture / UDP-streaming core

Shallow embedding of the C sources `udp_streamer.c`, `frame_capture.c` (and
the struct layouts of `udp_streamer.h`, `frame_capture.h`) of the TabCaster
repository.  Pure computations (packet fragmentation, pixel conversion) are
translated to Lean functions on `List Nat` byte sequences; the stateful
session objects (`UDPStreamer`, `FrameCapture`) become explicit records and
each C function becomes a state-passing Lean function.  External effects
(`recvfrom`, `sendto`, `XGetImage`, `gettimeofday`, `mkdir`) are supplied as
explicit inputs (received payload, send success flags, acquisition result,
current time), so every definition is executable.
-/

/-! ## Wire-protocol constants (`udp_streamer.h`) -/

/-- `#define MAX_PACKET_SIZE 1400` — safe UDP packet size. -/
def MAX_PACKET_SIZE : Nat := 1400

/-- `sizeof(PacketHeader)`: four packed `uint32_t` fields = 16 bytes. -/
def PACKET_HEADER_SIZE : Nat := 16

/-- `data_per_packet = MAX_PACKET_SIZE - sizeof(PacketHeader)` (udp_streamer.c line 154). -/
def data_per_packet : Nat := MAX_PACKET_SIZE - PACKET_HEADER_SIZE

/-! ## XImage (the platform frame buffer, as accessed through `XGetPixel`)

The source never reads an `XImage`'s raw bytes directly: every pixel access
goes through `XGetPixel(img, x, y)`, Xlib's accessor that abstracts over the
image's native depth, bit layout, stride and byte order and returns the
normalized pixel value.  The embedding therefore carries the native layout
fields (printed by `fc_print_frame_info`) next to the abstract pixel
accessor `getPixel`. -/

structure XImage where
  width : Nat
  height : Nat
  depth : Nat
  bits_per_pixel : Nat
  bytes_per_line : Nat
  /-- `img->byte_order`: `LSBFirst` (0) or `MSBFirst` (1). -/
  byte_order : Nat
  /-- `XGetPixel img x y` — the normalized pixel value at column x, row y. -/
  getPixel : Nat → Nat → Nat

/-! ## Pixel converter (`ximage_to_rgb`, udp_streamer.c lines 130-146)

The C loop writes, for each row y and column x, the three bytes
`(pixel >> 16) & 0xFF`, `(pixel >> 8) & 0xFF`, `pixel & 0xFF` at offset
`(y * width + x) * 3` of the output buffer; the writes are contiguous in
loop order, so the buffer is the concatenation of the per-pixel triples.
Shifts and masks are embedded as division and remainder by powers of two. -/

def ximage_to_rgb (img : XImage) : List Nat :=
  (List.range img.height).flatMap fun y =>
    (List.range img.width).flatMap fun x =>
      let pixel := img.getPixel x y
      [pixel / 2 ^ 16 % 256, pixel / 2 ^ 8 % 256, pixel % 256]

/-! ## Packet fragmentation (`udp_send_frame`, udp_streamer.c lines 149-222) -/

structure PacketHeader where
  frame_id : Nat
  packet_id : Nat
  total_packets : Nat
  data_size : Nat
deriving DecidableEq

structure Packet where
  header : PacketHeader
  payload : List Nat
deriving DecidableEq

/-- The packet sequence constructed by the send loop of `udp_send_frame`
(lines 174-212): `total_packets = (frame_size + D - 1) / D`, packet `pid`
carries `min D (frame_size - pid * D)` bytes copied from offset `pid * D`
of the RGB buffer. -/
def packetizeFrame (frame_id : Nat) (rgb : List Nat) : List Packet :=
  let frame_size := rgb.length
  let total_packets := (frame_size + data_per_packet - 1) / data_per_packet
  (List.range total_packets).map fun packet_id =>
    let remaining := frame_size - packet_id * data_per_packet
    let current_data_size := if remaining > data_per_packet then data_per_packet else remaining
    { header := { frame_id := frame_id, packet_id := packet_id,
                  total_packets := total_packets, data_size := current_data_size },
      payload := (rgb.drop (packet_id * data_per_packet)).take current_data_size }

/-- Big-endian serialization of a 32-bit field, as produced by `htonl`
followed by the store into a packed `uint32_t` struct member. -/
def be32 (x : Nat) : List Nat :=
  [x / 2 ^ 24 % 256, x / 2 ^ 16 % 256, x / 2 ^ 8 % 256, x % 256]

/-- Read back a 4-byte big-endian field. -/
def readBE32 : List Nat → Nat
  | [b0, b1, b2, b3] => ((b0 * 256 + b1) * 256 + b2) * 256 + b3
  | _ => 0

/-- The datagram bytes of one data packet: the 16-byte header (four
big-endian `uint32` fields, lines 183-186) followed by the payload copied
at `packet + sizeof(PacketHeader)` (lines 189-191). -/
def packetBytes (p : Packet) : List Nat :=
  be32 p.header.frame_id ++ be32 p.header.packet_id ++
    be32 p.header.total_packets ++ be32 p.header.data_size ++ p.payload

/-- A concrete 1390-byte payload exercising C1 (two packets). -/
def sampleRgb : List Nat := List.replicate 1390 37

/-! ## Stream session state (`UDPStreamer`, udp_streamer.h lines 486-498)

The socket address captured by `recvfrom` / used by `sendto` is opaque to
the program logic; it is embedded as an (ip, port) pair.  Datagram
payloads are byte lists.  The outcomes of the external calls `recvfrom`
and `sendto` enter as explicit arguments: the received payload and sender,
and a success flag for each send. -/

structure SockAddr where
  ip : Nat
  port : Nat
deriving DecidableEq

structure UDPStreamer where
  socket_fd : Int
  port : Int
  client_connected : Bool
  client_addr : SockAddr
  frame_width : Nat
  frame_height : Nat
  bytes_per_pixel : Nat
deriving DecidableEq

/-- `udp_init` (udp_streamer.c lines 9-51) on the successful path: zeroed
struct (`calloc`), `bytes_per_pixel = 3`, socket bound to the given port. -/
def udp_init (port : Int) (fd : Int) : UDPStreamer :=
  { socket_fd := fd, port := port, client_connected := false,
    client_addr := { ip := 0, port := 0 }, frame_width := 0, frame_height := 0,
    bytes_per_pixel := 3 }

/-- ASCII bytes of the handshake token "HELLO". -/
def HELLO_BYTES : List Nat := [72, 69, 76, 76, 79]

/-- ASCII bytes of the acknowledgment token "HELLO_ACK". -/
def HELLO_ACK_BYTES : List Nat := [72, 69, 76, 76, 79, 95, 65, 67, 75]

/-- The C-string contents of the receive buffer: `recvfrom` stores at most
`sizeof(buffer) - 1 = 31` bytes, the code writes a NUL terminator after
them (line 70), and `strcmp` reads up to the first NUL byte. -/
def cstringOf (bs : List Nat) : List Nat := bs.takeWhile fun b => b != 0

/-- `udp_wait_for_client` (udp_streamer.c lines 54-100) after a successful
`recvfrom` of `payload` from `sender`.  Result: (new state, datagrams
successfully sent, return code).  `recvfrom` overwrites `client_addr`
with the sender before the payload is inspected; on the "HELLO" branch
`client_connected` is set before the acknowledgment `sendto`, whose
success is the `ackSendOk` input (a failed `sendto` delivers nothing and
makes the function return -1). -/
def udp_wait_for_client (st : UDPStreamer) (sender : SockAddr) (payload : List Nat)
    (ackSendOk : Bool) : UDPStreamer × List (SockAddr × List Nat) × Int :=
  let st1 := { st with client_addr := sender }
  if cstringOf (payload.take 31) = HELLO_BYTES then
    let st2 := { st1 with client_connected := true }
    if ackSendOk then (st2, [(sender, HELLO_ACK_BYTES)], 0)
    else (st2, [], -1)
  else (st1, [], -1)

/-- Payload of the frame-info packet: `snprintf(info_packet, 64, "INFO:%d:%d", w, h)`. -/
def infoPayload (width height : Nat) : List Nat :=
  (("INFO:" ++ toString width ++ ":" ++ toString height).data.map Char.toNat)

/-- `udp_send_frame_info` (udp_streamer.c lines 103-127): guarded on
`client_connected`; records the frame dimensions, then sends the info
packet to the recorded client. -/
def udp_send_frame_info (st : UDPStreamer) (width height : Nat) (sendOk : Bool) :
    UDPStreamer × List (SockAddr × List Nat) × Int :=
  if st.client_connected = false then (st, [], -1)
  else
    let st1 := { st with frame_width := width, frame_height := height }
    if sendOk then (st1, [(st.client_addr, infoPayload width height)], 0)
    else (st1, [], -1)

/-- `udp_send_frame` (udp_streamer.c lines 149-222): guarded on a non-null
frame and `client_connected`; converts the frame to RGB and emits the
fragmented packet sequence (`none` models the -1 error return; transmission
of each constructed packet is modeled as succeeding). -/
def udp_send_frame (st : UDPStreamer) (frame : Option XImage) (frame_id : Nat) :
    Option (List Packet) :=
  match frame with
  | none => none
  | some img =>
    if st.client_connected = false then none
    else some (packetizeFrame frame_id (ximage_to_rgb img))

/-- `udp_cleanup` (udp_streamer.c lines 243-251): a NULL pointer is a
no-op; otherwise the socket is closed when its descriptor is valid and the
struct is freed.  The session pointer is modeled as `Option UDPStreamer`
(`none` = no live session); the second component lists the descriptors
actually closed by the call. -/
def udp_cleanup : Option UDPStreamer → Option UDPStreamer × List Int
  | none => (none, [])
  | some st => (none, if st.socket_fd ≥ 0 then [st.socket_fd] else [])

/-- A stream session in the freshly-bound, listening state. -/
def listenStreamer : UDPStreamer := udp_init 8888 3

/-! ## Capture session (`FrameCapture`, frame_capture.h / frame_capture.c)

`struct timeval` timestamps are embedded as microsecond counts (`Int`,
matching the signed `long` arithmetic `(now.tv_sec - last.tv_sec) * 1e6 +
(now.tv_usec - last.tv_usec)`).  `XGetImage`'s result enters
`fc_capture_frame` as an `Option XImage` input; `gettimeofday` enters as
the `now` argument.  A `FrameCapture*` that may be NULL is modeled as
`Option FrameCapture`. -/

structure ScreenInfo where
  name : String
  connected : Bool
  x : Int
  y : Int
  width : Nat
  height : Nat

structure DisplayManager where
  screens : List ScreenInfo

structure FrameCapture where
  x : Int
  y : Int
  width : Nat
  height : Nat
  output_name : String
  target_fps : Int
  frame_interval_us : Int
  last_capture : Int
  current_frame : Option XImage
  frame_ready : Bool
  capturing : Bool

/-- The screen-lookup loop of `fc_init` (frame_capture.c lines 259-298):
the first screen whose name matches is used; a connected screen supplies
its own geometry, a disconnected one falls back to
`mode_get_output_config` (external, supplied as the `modeConfig` oracle)
and fails if that reports no active mode.  No match at all fails. -/
def findScreenRegion (screens : List ScreenInfo)
    (modeConfig : String → Option (Int × Int × Nat × Nat)) (output_name : String) :
    Option (Int × Int × Nat × Nat) :=
  match screens with
  | [] => none
  | s :: rest =>
    if s.name = output_name then
      if s.connected then some (s.x, s.y, s.width, s.height)
      else modeConfig output_name
    else findScreenRegion rest modeConfig output_name

/-- `fc_init` (frame_capture.c lines 247-317).  `calloc` zeroes the struct,
so the session starts with `capturing = false`, `frame_ready = false`,
`last_capture = 0` and no current frame.  `target_fps = fps > 0 ? fps : 30`
and `frame_interval_us = 1000000 / target_fps` are computed before the
lookup (lines 254-255); the zero-dimension check (lines 301-305) and the
captures-directory creation (line 308, success supplied as `mkdirOk`)
follow it. -/
def fc_init (dm : DisplayManager) (modeConfig : String → Option (Int × Int × Nat × Nat))
    (mkdirOk : Bool) (output_name : String) (fps : Int) : Option FrameCapture :=
  let target_fps : Int := if fps > 0 then fps else 30
  let frame_interval_us : Int := 1000000 / target_fps
  match findScreenRegion dm.screens modeConfig output_name with
  | none => none
  | some (x, y, w, h) =>
    if w = 0 ∨ h = 0 then none
    else if mkdirOk = false then none
    else some { x := x, y := y, width := w, height := h, output_name := output_name,
                target_fps := target_fps, frame_interval_us := frame_interval_us,
                last_capture := 0, current_frame := none, frame_ready := false,
                capturing := false }

/-- `fc_start` (frame_capture.c lines 320-329): sets `capturing`, records
the current time as the rate-limit baseline, clears `frame_ready`. -/
def fc_start (fc : FrameCapture) (now : Int) : FrameCapture × Int :=
  ({ fc with capturing := true, last_capture := now, frame_ready := false }, 0)

/-- `fc_capture_frame` (frame_capture.c lines 332-369).  Return codes:
1 = new frame, 0 = too soon, -1 = error.  `time_diff` is inlined.  Note
the order of operations: once the rate-limit gate passes, the previous
frame is destroyed (lines 347-350) before `XGetImage` is attempted, so an
acquisition failure leaves the session without any frame (the destroy is
folded into each arm: `current_frame := none` on failure, the fresh image
overwriting it on success). -/
def fc_capture_frame (fc : FrameCapture) (now : Int) (acquired : Option XImage) :
    FrameCapture × Int :=
  if fc.capturing = false then (fc, -1)
  else if now - fc.last_capture < fc.frame_interval_us then (fc, 0)
  else
    match acquired with
    | none => ({ fc with current_frame := none }, -1)
    | some img =>
      ({ fc with current_frame := some img, frame_ready := true, last_capture := now }, 1)

/-- `fc_stop` (frame_capture.c lines 372-378): NULL pointer yields -1;
otherwise `capturing` is cleared and 0 returned. -/
def fc_stop : Option FrameCapture → Option FrameCapture × Int
  | none => (none, -1)
  | some fc => (some { fc with capturing := false }, 0)

/-- C5 counterexample: `fc_init` accepts fps = 1000 unchanged —
`fc->target_fps = fps > 0 ? fps : 30` has no upper clamp — so a
successfully created session can hold `target_fps = 1000 > 240`. -/
def sampleDM : DisplayManager :=
  { screens := [{ name := "HDMI-1", connected := true, x := 0, y := 0,
                  width := 1920, height := 1080 }] }

/-- A small concrete frame used by witnesses and counterexamples. -/
def sampleImage : XImage :=
  { width := 2, height := 1, depth := 24, bits_per_pixel := 32, bytes_per_line := 8,
    byte_order := 0, getPixel := fun _ _ => 1193046 }

/-- A capturing session at 30 fps holding a previously captured frame. -/
def capSessionWithFrame : FrameCapture :=
  { x := 0, y := 0, width := 2, height := 1, output_name := "HDMI-1", target_fps := 30,
    frame_interval_us := 33333, last_capture := 0, current_frame := some sampleImage,
    frame_ready := true, capturing := true }

/-! ## Traces of repeated `fc_capture_frame` polls (for the rate limit) -/

/-- Return codes of a sequence of `fc_capture_frame` calls, each supplying
the call time and the acquisition outcome, threading the session state. -/
def captureResults (fc : FrameCapture) : List (Int × Option XImage) → List Int
  | [] => []
  | (now, acq) :: rest =>
      (fc_capture_frame fc now acq).2 :: captureResults (fc_capture_frame fc now acq).1 rest

/-- A capturing session with a 100 microsecond interval and no frame yet. -/
def captureSessionIdle : FrameCapture :=
  { x := 0, y := 0, width := 2, height := 1, output_name := "HDMI-1", target_fps := 30,
    frame_interval_us := 100, last_capture := 0, current_frame := none,
    frame_ready := false, capturing := true }

/-! ## Theorems -/

theorem data_per_packet_eq : data_per_packet = 1384 := rfl

/-! ### Helper lemmas on chunked lists -/

theorem be32_readBE32 (x : Nat) : readBE32 (be32 x) = x % 2 ^ 32 := by
  show ((x / 2 ^ 24 % 256 * 256 + x / 2 ^ 16 % 256) * 256 + x / 2 ^ 8 % 256) * 256 + x % 256
      = x % 2 ^ 32
  omega

theorem be32_length (x : Nat) : (be32 x).length = 4 := rfl

theorem chunk_join :
    ∀ (n : Nat) (l : List Nat), l.length ≤ n →
      ((List.range ((l.length + data_per_packet - 1) / data_per_packet)).map
        fun pid => (l.drop (pid * data_per_packet)).take data_per_packet).flatten = l := by
  intro n
  induction n with
  | zero =>
    intro l hl
    have h0 : l = [] := List.eq_nil_of_length_eq_zero (Nat.le_zero.mp hl)
    subst h0
    simp [data_per_packet_eq]
  | succ n ih =>
    intro l hl
    cases l with
    | nil => simp [data_per_packet_eq]
    | cons a t =>
      have hlen : 0 < (a :: t).length := by simp
      have htot : ((a :: t).length + data_per_packet - 1) / data_per_packet
          = (((a :: t).drop data_per_packet).length + data_per_packet - 1) / data_per_packet
            + 1 := by
        rw [List.length_drop]
        rw [data_per_packet_eq]
        omega
      rw [htot, List.range_succ_eq_map, List.map_cons, List.map_map]
      have hfun : ((fun pid => ((a :: t).drop (pid * data_per_packet)).take data_per_packet)
            ∘ Nat.succ)
          = fun pid => (((a :: t).drop data_per_packet).drop (pid * data_per_packet)).take
              data_per_packet := by
        funext pid
        show (((a :: t)).drop (Nat.succ pid * data_per_packet)).take data_per_packet = _
        rw [List.drop_drop]
        congr 2
        rw [data_per_packet_eq]
        omega
      rw [hfun, List.flatten_cons]
      have hrec := ih ((a :: t).drop data_per_packet)
        (by rw [List.length_drop]; rw [data_per_packet_eq]; simp at hl ⊢; omega)
      rw [hrec]
      simp [List.take_append_drop]

/-- The payload of every packet equals a plain `take data_per_packet` chunk:
when the remaining byte count is below `data_per_packet`, taking the exact
remainder and taking `data_per_packet` agree because the dropped suffix is
that short. -/
theorem packetize_payloads (fid : Nat) (rgb : List Nat) :
    (packetizeFrame fid rgb).map (fun p => p.payload)
      = (List.range ((rgb.length + data_per_packet - 1) / data_per_packet)).map
          fun pid => (rgb.drop (pid * data_per_packet)).take data_per_packet := by
  unfold packetizeFrame
  rw [List.map_map]
  congr 1
  funext pid
  show (rgb.drop (pid * data_per_packet)).take
      (if rgb.length - pid * data_per_packet > data_per_packet then data_per_packet
        else rgb.length - pid * data_per_packet)
    = (rgb.drop (pid * data_per_packet)).take data_per_packet
  by_cases h : rgb.length - pid * data_per_packet > data_per_packet
  · rw [if_pos h]
  · rw [if_neg h]
    have hlen : (rgb.drop (pid * data_per_packet)).length
        = rgb.length - pid * data_per_packet := List.length_drop _ _
    rw [← hlen]
    rw [List.take_length]
    exact (List.take_of_length_le (by omega)).symm

theorem packetize_length (fid : Nat) (rgb : List Nat) :
    (packetizeFrame fid rgb).length
      = (rgb.length + data_per_packet - 1) / data_per_packet := by
  unfold packetizeFrame
  rw [List.length_map, List.length_range]

theorem packetize_get (fid : Nat) (rgb : List Nat) (i : Nat)
    (hi : i < (rgb.length + data_per_packet - 1) / data_per_packet) :
    (packetizeFrame fid rgb).get? i
      = some
        { header :=
            { frame_id := fid, packet_id := i,
              total_packets := (rgb.length + data_per_packet - 1) / data_per_packet,
              data_size :=
                if rgb.length - i * data_per_packet > data_per_packet then data_per_packet
                else rgb.length - i * data_per_packet },
          payload := (rgb.drop (i * data_per_packet)).take
            (if rgb.length - i * data_per_packet > data_per_packet then data_per_packet
              else rgb.length - i * data_per_packet) } := by
  unfold packetizeFrame
  rw [List.get?_map, List.get?_range hi]
  rfl

/-- C1, first data-size fact: a packet that is not the last carries a full
`data_per_packet` of bytes. -/
theorem packetize_data_size_full (rgb : List Nat) (i : Nat)
    (hi : i + 1 < (rgb.length + data_per_packet - 1) / data_per_packet) :
    (if rgb.length - i * data_per_packet > data_per_packet then data_per_packet
      else rgb.length - i * data_per_packet) = data_per_packet := by
  rw [data_per_packet_eq] at hi ⊢
  have h1 : (i + 1) * 1384 < rgb.length := by omega
  rw [if_pos (by omega)]

/-- C1, second data-size fact: the final packet carries exactly the
remainder bytes. -/
theorem packetize_last_data_size (rgb : List Nat) (hL : 0 < rgb.length) :
    (if rgb.length
          - ((rgb.length + data_per_packet - 1) / data_per_packet - 1) * data_per_packet
          > data_per_packet
        then data_per_packet
        else rgb.length
          - ((rgb.length + data_per_packet - 1) / data_per_packet - 1) * data_per_packet)
      = rgb.length
        - ((rgb.length + data_per_packet - 1) / data_per_packet - 1) * data_per_packet := by
  rw [data_per_packet_eq]
  rw [if_neg (by omega)]

theorem packetize_payload_length (fid : Nat) (rgb : List Nat) :
    ∀ p ∈ packetizeFrame fid rgb, p.payload.length = p.header.data_size := by
  intro p hp
  unfold packetizeFrame at hp
  simp only [List.mem_map, List.mem_range] at hp
  obtain ⟨pid, hpid, rfl⟩ := hp
  simp only [List.length_take, List.length_drop]
  rw [data_per_packet_eq]
  split <;> omega

/-- Layout of one sent datagram: 16 header bytes then the payload, each
32-bit field readable back (mod 2^32) from its big-endian slot. -/
theorem packetBytes_layout (p : Packet) :
    (packetBytes p).length = PACKET_HEADER_SIZE + p.payload.length ∧
    (packetBytes p).drop PACKET_HEADER_SIZE = p.payload ∧
    readBE32 ((packetBytes p).take 4) = p.header.frame_id % 2 ^ 32 ∧
    readBE32 (((packetBytes p).drop 4).take 4) = p.header.packet_id % 2 ^ 32 ∧
    readBE32 (((packetBytes p).drop 8).take 4) = p.header.total_packets % 2 ^ 32 ∧
    readBE32 (((packetBytes p).drop 12).take 4) = p.header.data_size % 2 ^ 32 := by
  refine ⟨?_, rfl, ?_, ?_, ?_, ?_⟩
  · show (be32 p.header.frame_id ++ (be32 p.header.packet_id ++ (be32 p.header.total_packets
        ++ (be32 p.header.data_size ++ p.payload)))).length = 16 + p.payload.length
    rw [List.length_append, List.length_append, List.length_append, List.length_append,
      be32_length, be32_length, be32_length, be32_length]
    omega
  · show readBE32 (be32 p.header.frame_id) = _
    rw [be32_readBE32]
  · show readBE32 (be32 p.header.packet_id) = _
    rw [be32_readBE32]
  · show readBE32 (be32 p.header.total_packets) = _
    rw [be32_readBE32]
  · show readBE32 (be32 p.header.data_size) = _
    rw [be32_readBE32]

/-- C1: for payload length L > 0 and D = `data_per_packet` = 1400 - 16 =
1384, `udp_send_frame`'s fragmentation yields exactly
`total_packets = ceil(L / D) = (L + D - 1) / D` packets; every packet but
the last carries `data_size = D`, the last carries
`data_size = L - (total_packets - 1) * D`, each packet's payload has
exactly `data_size` bytes, and concatenating the payloads in emission
(packet_id) order reproduces the original L input bytes. -/
theorem udp_send_frame_packetization (fid : Nat) (rgb : List Nat) (hL : 0 < rgb.length) :
    data_per_packet = 1384 ∧
    (packetizeFrame fid rgb).length
        = (rgb.length + data_per_packet - 1) / data_per_packet ∧
    (∀ i, i + 1 < (rgb.length + data_per_packet - 1) / data_per_packet →
      ((packetizeFrame fid rgb).map fun p => p.header.data_size).get? i
        = some data_per_packet) ∧
    ((packetizeFrame fid rgb).map fun p => p.header.data_size).get?
        ((rgb.length + data_per_packet - 1) / data_per_packet - 1)
      = some (rgb.length
          - ((rgb.length + data_per_packet - 1) / data_per_packet - 1) * data_per_packet) ∧
    (∀ p ∈ packetizeFrame fid rgb, p.payload.length = p.header.data_size) ∧
    ((packetizeFrame fid rgb).map fun p => p.payload).flatten = rgb := by
  refine ⟨data_per_packet_eq, packetize_length fid rgb, ?_, ?_,
    packetize_payload_length fid rgb, ?_⟩
  · intro i hi
    rw [List.get?_map, packetize_get fid rgb i (by omega)]
    simp only [Option.map_some']
    rw [packetize_data_size_full rgb i hi]
  · have htot : 0 < (rgb.length + data_per_packet - 1) / data_per_packet := by
      rw [data_per_packet_eq]
      omega
    rw [List.get?_map,
      packetize_get fid rgb ((rgb.length + data_per_packet - 1) / data_per_packet - 1)
        (by omega)]
    simp only [Option.map_some']
    rw [packetize_last_data_size rgb hL]
  · rw [packetize_payloads fid rgb]
    exact chunk_join rgb.length rgb le_rfl

theorem udp_send_frame_packetization_witness :
    0 < sampleRgb.length ∧
    ((packetizeFrame 0 sampleRgb).map fun p => p.payload).flatten = sampleRgb := by
  have hpos : 0 < sampleRgb.length := by
    simp only [sampleRgb, List.length_replicate]
    decide
  exact ⟨hpos, (udp_send_frame_packetization 0 sampleRgb hpos).2.2.2.2.2⟩

/-- C7: all packets of one frame carry the same `frame_id` and the same
`total_packets`; packet ids are exactly `0, 1, ..., total_packets - 1` in
emission order (dense, zero-based, strictly increasing); and each datagram
is a 16-byte header of four big-endian 32-bit fields followed by the
payload. -/
theorem packet_header_invariants (fid : Nat) (rgb : List Nat) :
    ((packetizeFrame fid rgb).map fun p => p.header.packet_id)
        = List.range ((rgb.length + data_per_packet - 1) / data_per_packet) ∧
    ((packetizeFrame fid rgb).map fun p => p.header.packet_id).Pairwise (· < ·) ∧
    (∀ p ∈ packetizeFrame fid rgb,
      p.header.frame_id = fid ∧
      p.header.total_packets = (rgb.length + data_per_packet - 1) / data_per_packet) ∧
    (∀ p ∈ packetizeFrame fid rgb,
      (packetBytes p).length = PACKET_HEADER_SIZE + p.payload.length ∧
      (packetBytes p).drop PACKET_HEADER_SIZE = p.payload ∧
      readBE32 ((packetBytes p).take 4) = p.header.frame_id % 2 ^ 32 ∧
      readBE32 (((packetBytes p).drop 4).take 4) = p.header.packet_id % 2 ^ 32 ∧
      readBE32 (((packetBytes p).drop 8).take 4) = p.header.total_packets % 2 ^ 32 ∧
      readBE32 (((packetBytes p).drop 12).take 4) = p.header.data_size % 2 ^ 32) := by
  have hids : ((packetizeFrame fid rgb).map fun p => p.header.packet_id)
      = List.range ((rgb.length + data_per_packet - 1) / data_per_packet) := by
    unfold packetizeFrame
    rw [List.map_map]
    exact List.map_id' _
  refine ⟨hids, ?_, ?_, fun p _ => packetBytes_layout p⟩
  · rw [hids]
    exact List.pairwise_lt_range _
  · intro p hp
    unfold packetizeFrame at hp
    simp only [List.mem_map, List.mem_range] at hp
    obtain ⟨pid, hpid, rfl⟩ := hp
    exact ⟨rfl, rfl⟩

theorem packet_header_invariants_witness :
    ((packetizeFrame 5 sampleRgb).map fun p => p.header.packet_id) = List.range 2 := by
  have h2 : (sampleRgb.length + data_per_packet - 1) / data_per_packet = 2 := by
    simp only [sampleRgb, List.length_replicate, data_per_packet_eq]
  have h := (packet_header_invariants 5 sampleRgb).1
  rw [h2] at h
  exact h

/-- C2 counterexample: the 6-byte datagram "HELLO\x00" (the token plus an
embedded NUL byte) is not the exact token "HELLO", yet `strcmp` stops at
the NUL, so `udp_wait_for_client` marks the session connected and replies
with "HELLO_ACK". -/
theorem handshake_exact_token_counterexample :
    [72, 69, 76, 76, 79, 0] ≠ HELLO_BYTES ∧
    (udp_wait_for_client listenStreamer { ip := 101, port := 5000 }
        [72, 69, 76, 76, 79, 0] true).1.client_connected = true ∧
    (udp_wait_for_client listenStreamer { ip := 101, port := 5000 }
        [72, 69, 76, 76, 79, 0] true).2.1
      = [({ ip := 101, port := 5000 }, HELLO_ACK_BYTES)] := by
  refine ⟨by decide, rfl, rfl⟩

/-- C2 (amended): the comparison is C-string equality of the receive
buffer, i.e. of the first 31 received bytes up to the first NUL.  If that
C string equals "HELLO" and the acknowledgment transmission succeeds, the
session becomes connected, records the sender, replies "HELLO_ACK" and
returns 0; if it differs from "HELLO", the session stays unconnected
(Listening), nothing is sent and -1 is returned. -/
theorem handshake_spec (st : UDPStreamer) (sender : SockAddr) (payload : List Nat)
    (ackOk : Bool) (hListen : st.client_connected = false) :
    (cstringOf (payload.take 31) = HELLO_BYTES →
      (udp_wait_for_client st sender payload true).1.client_connected = true ∧
      (udp_wait_for_client st sender payload true).1.client_addr = sender ∧
      (udp_wait_for_client st sender payload true).2.1 = [(sender, HELLO_ACK_BYTES)] ∧
      (udp_wait_for_client st sender payload true).2.2 = 0) ∧
    (cstringOf (payload.take 31) ≠ HELLO_BYTES →
      (udp_wait_for_client st sender payload ackOk).1.client_connected = false ∧
      (udp_wait_for_client st sender payload ackOk).2.1 = [] ∧
      (udp_wait_for_client st sender payload ackOk).2.2 = -1) := by
  constructor
  · intro hyes
    unfold udp_wait_for_client
    rw [if_pos hyes]
    exact ⟨rfl, rfl, rfl, rfl⟩
  · intro hno
    unfold udp_wait_for_client
    rw [if_neg hno]
    exact ⟨hListen, rfl, rfl⟩

theorem handshake_spec_witness :
    listenStreamer.client_connected = false ∧
    cstringOf (HELLO_BYTES.take 31) = HELLO_BYTES ∧
    (udp_wait_for_client listenStreamer { ip := 7, port := 9 } HELLO_BYTES
        true).1.client_connected = true ∧
    cstringOf ([1, 2, 3].take 31) ≠ HELLO_BYTES ∧
    (udp_wait_for_client listenStreamer { ip := 7, port := 9 } [1, 2, 3]
        false).1.client_connected = false := by
  refine ⟨rfl, by decide, ?_, by decide, ?_⟩
  · exact ((handshake_spec listenStreamer { ip := 7, port := 9 } HELLO_BYTES true rfl).1
      (by decide)).1
  · exact ((handshake_spec listenStreamer { ip := 7, port := 9 } [1, 2, 3] false rfl).2
      (by decide)).1

/-- C10: when a valid "HELLO" arrives but the "HELLO_ACK" transmission
fails, `udp_wait_for_client` returns -1, yet the session state is exactly
the state of a fully successful handshake: connected, with the sender
recorded; consequently `udp_send_frame_info` and `udp_send_frame` accept
subsequent calls as if the handshake had succeeded. -/
theorem handshake_ack_failure (st : UDPStreamer) (sender : SockAddr) (payload : List Nat)
    (hHello : cstringOf (payload.take 31) = HELLO_BYTES) :
    (udp_wait_for_client st sender payload false).2.2 = -1 ∧
    (udp_wait_for_client st sender payload false).2.1 = [] ∧
    (udp_wait_for_client st sender payload false).1
      = (udp_wait_for_client st sender payload true).1 ∧
    (udp_wait_for_client st sender payload false).1.client_connected = true ∧
    (udp_wait_for_client st sender payload false).1.client_addr = sender ∧
    (∀ w h, (udp_send_frame_info (udp_wait_for_client st sender payload false).1
        w h true).2.2 = 0) ∧
    (∀ img fid, (udp_send_frame (udp_wait_for_client st sender payload false).1
        (some img) fid).isSome = true) := by
  unfold udp_wait_for_client
  rw [if_pos hHello, if_pos hHello]
  refine ⟨rfl, rfl, rfl, rfl, rfl, ?_, ?_⟩
  · intro w h
    rfl
  · intro img fid
    rfl

theorem handshake_ack_failure_witness :
    cstringOf (HELLO_BYTES.take 31) = HELLO_BYTES ∧
    (udp_wait_for_client listenStreamer { ip := 44, port := 55 } HELLO_BYTES
        false).2.2 = -1 ∧
    (udp_wait_for_client listenStreamer { ip := 44, port := 55 } HELLO_BYTES
        false).1.client_connected = true := by
  have h := handshake_ack_failure listenStreamer { ip := 44, port := 55 } HELLO_BYTES
    (by decide)
  exact ⟨by decide, h.1, h.2.2.2.1⟩

theorem fps_upper_bound_counterexample :
    ((fc_init sampleDM (fun _ => none) true "HDMI-1" 1000).map fun fc => fc.target_fps)
        = some 1000 ∧
    ¬ (1000 : Int) ≤ 240 := by
  refine ⟨rfl, by decide⟩

/-- C5 (amended): every successfully created session satisfies the lower
bound `1 ≤ target_fps` (positive fps is stored as given, non-positive
defaults to 30); no upper bound is enforced. -/
theorem fps_lower_bound (dm : DisplayManager)
    (modeConfig : String → Option (Int × Int × Nat × Nat)) (mkdirOk : Bool)
    (output_name : String) (fps : Int) (fc : FrameCapture)
    (h : fc_init dm modeConfig mkdirOk output_name fps = some fc) :
    1 ≤ fc.target_fps := by
  unfold fc_init at h
  cases hfind : findScreenRegion dm.screens modeConfig output_name with
  | none =>
    simp only [hfind] at h
    exact Option.noConfusion h
  | some r =>
    obtain ⟨x, y, w, hgt⟩ := r
    simp only [hfind] at h
    by_cases hwh : w = 0 ∨ hgt = 0
    · rw [if_pos hwh] at h; exact absurd h (by simp)
    · rw [if_neg hwh] at h
      by_cases hmk : mkdirOk = false
      · rw [if_pos hmk] at h; exact absurd h (by simp)
      · rw [if_neg hmk] at h
        have hfc := Option.some.inj h
        subst hfc
        by_cases hfps : fps > 0
        · simp only [if_pos hfps]
          omega
        · simp only [if_neg hfps]
          omega

theorem fps_lower_bound_witness :
    fc_init sampleDM (fun _ => none) true "HDMI-1" 60
        = some { x := 0, y := 0, width := 1920, height := 1080, output_name := "HDMI-1",
                 target_fps := 60, frame_interval_us := 16666, last_capture := 0,
                 current_frame := none, frame_ready := false, capturing := false } ∧
    (1 : Int) ≤ 60 :=
  ⟨rfl, fps_lower_bound sampleDM (fun _ => none) true "HDMI-1" 60 _ rfl⟩

/-- C6: `fc_init` stores `target_fps = fps` for positive fps and 30 for
non-positive fps, derives `frame_interval_us = 1000000 / target_fps`
(C integer division; both operands positive), and fails whenever the
resolved region has a zero width or height. -/
theorem fc_init_spec (dm : DisplayManager)
    (modeConfig : String → Option (Int × Int × Nat × Nat)) (mkdirOk : Bool)
    (output_name : String) (fps : Int) :
    (∀ fc, fc_init dm modeConfig mkdirOk output_name fps = some fc →
      fc.target_fps = (if fps > 0 then fps else 30) ∧
      fc.frame_interval_us = 1000000 / fc.target_fps) ∧
    (∀ x y w h, findScreenRegion dm.screens modeConfig output_name = some (x, y, w, h) →
      w = 0 ∨ h = 0 → fc_init dm modeConfig mkdirOk output_name fps = none) := by
  constructor
  · intro fc h
    unfold fc_init at h
    cases hfind : findScreenRegion dm.screens modeConfig output_name with
    | none =>
      simp only [hfind] at h
      exact Option.noConfusion h
    | some r =>
      obtain ⟨x, y, w, hgt⟩ := r
      simp only [hfind] at h
      by_cases hwh : w = 0 ∨ hgt = 0
      · rw [if_pos hwh] at h; exact absurd h (by simp)
      · rw [if_neg hwh] at h
        by_cases hmk : mkdirOk = false
        · rw [if_pos hmk] at h; exact absurd h (by simp)
        · rw [if_neg hmk] at h
          have hfc := Option.some.inj h
          subst hfc
          exact ⟨rfl, rfl⟩
  · intro x y w h hfind hwh
    unfold fc_init
    simp only [hfind]
    rw [if_pos hwh]

theorem fc_init_spec_witness :
    ((fc_init sampleDM (fun _ => none) true "HDMI-1" (-5)).map fun fc =>
        fc.target_fps) = some (if (-5 : Int) > 0 then (-5 : Int) else 30) := by
  have hsome : fc_init sampleDM (fun _ => none) true "HDMI-1" (-5)
      = some { x := 0, y := 0, width := 1920, height := 1080, output_name := "HDMI-1",
               target_fps := 30, frame_interval_us := 33333, last_capture := 0,
               current_frame := none, frame_ready := false, capturing := false } := rfl
  have h2 := (fc_init_spec sampleDM (fun _ => none) true "HDMI-1" (-5)).1 _ hsome
  rw [hsome]
  simp only [Option.map_some']
  exact congrArg some h2.1

/-- C4 counterexample: a capturing session holding a frame, polled after
the rate-limit interval with a failing acquisition, returns -1 and stays
Capturing — but its previously held frame has been destroyed
(`XDestroyImage` runs before `XGetImage`, frame_capture.c lines 347-357),
so the session state is not unchanged: `current_frame` drops from
`some sampleImage` to `none`. -/
theorem capture_failure_counterexample :
    (fc_capture_frame capSessionWithFrame 40000 none).2 = -1 ∧
    (fc_capture_frame capSessionWithFrame 40000 none).1.capturing = true ∧
    capSessionWithFrame.current_frame = some sampleImage ∧
    (fc_capture_frame capSessionWithFrame 40000 none).1.current_frame = none :=
  ⟨rfl, rfl, rfl, rfl⟩

/-- C4 (amended): on a failed acquisition past the rate-limit gate,
`fc_capture_frame` returns -1 and the session remains Capturing with
`last_capture` and `frame_ready` untouched, but the previously held
frame has already been released: `current_frame` is `none` afterwards. -/
theorem capture_failure_spec (fc : FrameCapture) (now : Int)
    (hcap : fc.capturing = true)
    (hdue : ¬ now - fc.last_capture < fc.frame_interval_us) :
    (fc_capture_frame fc now none).2 = -1 ∧
    (fc_capture_frame fc now none).1.capturing = true ∧
    (fc_capture_frame fc now none).1.last_capture = fc.last_capture ∧
    (fc_capture_frame fc now none).1.frame_ready = fc.frame_ready ∧
    (fc_capture_frame fc now none).1.current_frame = none := by
  have h : fc_capture_frame fc now none = ({ fc with current_frame := none }, -1) := by
    unfold fc_capture_frame
    rw [hcap]
    rw [if_neg (by decide : ¬ (true = false))]
    rw [if_neg hdue]
  rw [h]
  exact ⟨rfl, hcap, rfl, rfl, rfl⟩

theorem capture_failure_spec_witness :
    capSessionWithFrame.capturing = true ∧
    ¬ ((40000 : Int) - capSessionWithFrame.last_capture
        < capSessionWithFrame.frame_interval_us) ∧
    (fc_capture_frame capSessionWithFrame 40000 none).2 = -1 ∧
    (fc_capture_frame capSessionWithFrame 40000 none).1.capturing = true := by
  have h := capture_failure_spec capSessionWithFrame 40000 rfl (by decide)
  exact ⟨rfl, by decide, h.1, h.2.1⟩

/-- C9: `fc_stop` and `udp_cleanup` are idempotent on the session state;
`udp_cleanup` reaches the closed state (`none`, the freed session) from
any state and a repeated call closes no socket again. -/
theorem stop_close_idempotent :
    (∀ s : Option FrameCapture, (fc_stop (fc_stop s).1).1 = (fc_stop s).1) ∧
    (∀ u : Option UDPStreamer,
      (udp_cleanup (udp_cleanup u).1).1 = (udp_cleanup u).1 ∧
      (udp_cleanup (udp_cleanup u).1).2 = [] ∧
      (udp_cleanup u).1 = none) := by
  constructor
  · intro s
    cases s with
    | none => rfl
    | some fc => rfl
  · intro u
    cases u with
    | none => exact ⟨rfl, rfl, rfl⟩
    | some st => exact ⟨rfl, rfl, rfl⟩

theorem fc_capture_frame_interval_const (fc : FrameCapture) (now : Int)
    (acq : Option XImage) :
    (fc_capture_frame fc now acq).1.frame_interval_us = fc.frame_interval_us := by
  unfold fc_capture_frame
  split
  · rfl
  · split
    · rfl
    · cases acq with
      | none => rfl
      | some img => rfl

/-- A call that reports a new frame passed the rate-limit gate and moved
the baseline timestamp to its own call time. -/
theorem fc_capture_frame_success (fc : FrameCapture) (now : Int) (acq : Option XImage)
    (h : (fc_capture_frame fc now acq).2 = 1) :
    fc.frame_interval_us ≤ now - fc.last_capture ∧
    (fc_capture_frame fc now acq).1.last_capture = now := by
  unfold fc_capture_frame at h ⊢
  by_cases hcap : fc.capturing = false
  · rw [if_pos hcap] at h
    simp at h
  · rw [if_neg hcap] at h ⊢
    by_cases hlt : now - fc.last_capture < fc.frame_interval_us
    · rw [if_pos hlt] at h
      simp at h
    · rw [if_neg hlt] at h ⊢
      cases acq with
      | none => simp at h
      | some img => exact ⟨by omega, rfl⟩

/-- A call that does not report a new frame leaves the baseline timestamp
unchanged. -/
theorem fc_capture_frame_nonsuccess (fc : FrameCapture) (now : Int) (acq : Option XImage)
    (h : (fc_capture_frame fc now acq).2 ≠ 1) :
    (fc_capture_frame fc now acq).1.last_capture = fc.last_capture := by
  unfold fc_capture_frame at h ⊢
  by_cases hcap : fc.capturing = false
  · rw [if_pos hcap]
  · rw [if_neg hcap] at h ⊢
    by_cases hlt : now - fc.last_capture < fc.frame_interval_us
    · rw [if_pos hlt]
    · rw [if_neg hlt] at h ⊢
      cases acq with
      | none => rfl
      | some img => exact absurd rfl h

/-- Every "new frame" result in a trace happens no earlier than one full
interval after the starting baseline (the baseline never moves backwards
while the interval is nonnegative). -/
theorem captureResults_success_time :
    ∀ (calls : List (Int × Option XImage)) (fc : FrameCapture) (j : Nat) (tj : Int)
      (aj : Option XImage),
      0 ≤ fc.frame_interval_us →
      calls.get? j = some (tj, aj) →
      (captureResults fc calls).get? j = some 1 →
      fc.last_capture + fc.frame_interval_us ≤ tj := by
  intro calls
  induction calls with
  | nil =>
    intro fc j tj aj _ hj _
    simp at hj
  | cons c rest ih =>
    obtain ⟨t0, a0⟩ := c
    intro fc j tj aj hint hj hr
    cases j with
    | zero =>
      simp only [List.get?_cons_zero, Option.some.injEq, Prod.mk.injEq] at hj
      obtain ⟨h1, _⟩ := hj
      subst h1
      have hr0 : (fc_capture_frame fc t0 a0).2 = 1 := by
        simpa [captureResults] using hr
      have hs := fc_capture_frame_success fc t0 a0 hr0
      omega
    | succ j =>
      simp only [List.get?_cons_succ] at hj
      have hr' : (captureResults (fc_capture_frame fc t0 a0).1 rest).get? j = some 1 := by
        simpa [captureResults] using hr
      have hint' : 0 ≤ (fc_capture_frame fc t0 a0).1.frame_interval_us := by
        rw [fc_capture_frame_interval_const]
        exact hint
      have hrec := ih (fc_capture_frame fc t0 a0).1 j tj aj hint' hj hr'
      rw [fc_capture_frame_interval_const] at hrec
      by_cases hs : (fc_capture_frame fc t0 a0).2 = 1
      · have h1 := fc_capture_frame_success fc t0 a0 hs
        omega
      · have h1 := fc_capture_frame_nonsuccess fc t0 a0 hs
        omega

/-- C3: (a) while capturing, a poll arriving strictly before
`frame_interval_us` has elapsed returns 0 with the session state exactly
unchanged (the "not yet" result); (b) consequently, in any polling trace,
two calls that both return "new frame" (1) are separated by at least
`frame_interval_us` microseconds — the baseline `last_capture` advances
only on a successful capture. -/
theorem capture_rate_limit :
    (∀ (fc : FrameCapture) (now : Int) (acq : Option XImage),
      fc.capturing = true → now - fc.last_capture < fc.frame_interval_us →
      fc_capture_frame fc now acq = (fc, 0)) ∧
    (∀ (calls : List (Int × Option XImage)) (fc : FrameCapture) (i j : Nat)
      (ti tj : Int) (ai aj : Option XImage),
      0 ≤ fc.frame_interval_us → i < j →
      calls.get? i = some (ti, ai) → calls.get? j = some (tj, aj) →
      (captureResults fc calls).get? i = some 1 →
      (captureResults fc calls).get? j = some 1 →
      fc.frame_interval_us ≤ tj - ti) := by
  constructor
  · intro fc now acq hcap hlt
    unfold fc_capture_frame
    rw [hcap]
    rw [if_neg (by decide : ¬ (true = false)), if_pos hlt]
  · intro calls
    induction calls with
    | nil =>
      intro fc i j ti tj ai aj _ _ hi
      simp at hi
    | cons c rest ih =>
      obtain ⟨t0, a0⟩ := c
      intro fc i j ti tj ai aj hint hij hi hj hri hrj
      obtain ⟨j', rfl⟩ : ∃ j', j = j' + 1 := ⟨j - 1, by omega⟩
      simp only [List.get?_cons_succ] at hj
      have hrj' : (captureResults (fc_capture_frame fc t0 a0).1 rest).get? j' = some 1 := by
        simpa [captureResults] using hrj
      have hint' : 0 ≤ (fc_capture_frame fc t0 a0).1.frame_interval_us := by
        rw [fc_capture_frame_interval_const]
        exact hint
      cases i with
      | zero =>
        simp only [List.get?_cons_zero, Option.some.injEq, Prod.mk.injEq] at hi
        obtain ⟨h1, _⟩ := hi
        subst h1
        have hr0 : (fc_capture_frame fc t0 a0).2 = 1 := by
          simpa [captureResults] using hri
        have hs := fc_capture_frame_success fc t0 a0 hr0
        have hq := captureResults_success_time rest (fc_capture_frame fc t0 a0).1 j' tj aj
          hint' hj hrj'
        rw [fc_capture_frame_interval_const] at hq
        omega
      | succ i' =>
        simp only [List.get?_cons_succ] at hi
        have hri' : (captureResults (fc_capture_frame fc t0 a0).1 rest).get? i'
            = some 1 := by
          simpa [captureResults] using hri
        have hrec := ih (fc_capture_frame fc t0 a0).1 i' j' ti tj ai aj hint'
          (by omega) hi hj hri' hrj'
        rw [fc_capture_frame_interval_const] at hrec
        exact hrec

theorem capture_rate_limit_witness :
    fc_capture_frame captureSessionIdle 50 (some sampleImage) = (captureSessionIdle, 0) ∧
    captureSessionIdle.frame_interval_us ≤ 250 - 100 := by
  constructor
  · exact capture_rate_limit.1 captureSessionIdle 50 (some sampleImage) rfl (by decide)
  · exact capture_rate_limit.2 [(100, some sampleImage), (250, some sampleImage)]
      captureSessionIdle 0 1 100 250 (some sampleImage) (some sampleImage)
      (by decide) (by decide) rfl rfl rfl rfl

/-! ## Row-major indexing lemmas for the pixel converter -/

theorem flatMap_length_const (f : Nat → List Nat) (k : Nat) (hf : ∀ a, (f a).length = k) :
    ∀ l : List Nat, (l.flatMap f).length = k * l.length := by
  intro l
  induction l with
  | nil => simp
  | cons a t ih =>
    rw [List.flatMap_cons, List.length_append, hf, ih, List.length_cons, Nat.mul_succ]
    omega

theorem flatMap_drop_const (f : Nat → List Nat) (k : Nat) (hf : ∀ a, (f a).length = k) :
    ∀ (l : List Nat) (i : Nat), (l.flatMap f).drop (k * i) = (l.drop i).flatMap f := by
  intro l
  induction l with
  | nil =>
    intro i
    simp
  | cons a t ih =>
    intro i
    cases i with
    | zero => simp
    | succ i =>
      rw [List.flatMap_cons]
      rw [show k * (i + 1) = (f a).length + k * i from by rw [hf]; ring]
      rw [List.drop_append, List.drop_succ_cons]
      exact ih i

/-- Reading a window of at most one block out of a concatenation of
constant-length blocks indexed by `0, ..., n-1`. -/
theorem flatMap_range_chunk (f : Nat → List Nat) (k : Nat) (hf : ∀ a, (f a).length = k)
    (n j s t : Nat) (hj : j < n) (hst : s + t ≤ k) :
    ((((List.range n).flatMap f).drop (k * j + s)).take t) = ((f j).drop s).take t := by
  rw [← List.drop_drop, flatMap_drop_const f k hf]
  obtain ⟨m, hm⟩ : ∃ m, n = j + (m + 1) := ⟨n - j - 1, by omega⟩
  rw [hm, List.range_add, List.drop_append_of_le_length (by simp)]
  rw [show (List.range j).drop j = [] from List.drop_eq_nil_of_le (by simp), List.nil_append]
  rw [List.range_succ_eq_map, List.map_cons, List.flatMap_cons]
  rw [List.drop_append_of_le_length (by rw [hf]; omega)]
  rw [List.take_append_of_le_length (by rw [List.length_drop, hf]; omega)]
  norm_num

/-- C8: the pixel converter (a pure Lean function) produces a packed
3-byte-per-pixel row-major RGB sequence of length `width * height * 3`;
the triple at row-major position `y * width + x` is exactly the RGB
extraction of `XGetPixel x y`; and the output depends only on the
dimensions and the (already layout-normalized) pixel values — two frames
differing in depth, bits-per-pixel, stride or byte order but agreeing on
pixels convert identically. -/
theorem ximage_to_rgb_spec (img : XImage) :
    (ximage_to_rgb img).length = img.width * img.height * 3 ∧
    (∀ x y, x < img.width → y < img.height →
      ((ximage_to_rgb img).drop ((y * img.width + x) * 3)).take 3
        = [img.getPixel x y / 2 ^ 16 % 256, img.getPixel x y / 2 ^ 8 % 256,
           img.getPixel x y % 256]) ∧
    (∀ img2 : XImage, img2.width = img.width → img2.height = img.height →
      (∀ x y, img2.getPixel x y = img.getPixel x y) →
      ximage_to_rgb img2 = ximage_to_rgb img) := by
  have hg : ∀ yy : Nat, ((List.range img.width).flatMap fun xx =>
      [img.getPixel xx yy / 2 ^ 16 % 256, img.getPixel xx yy / 2 ^ 8 % 256,
        img.getPixel xx yy % 256]).length = 3 * img.width := by
    intro yy
    rw [flatMap_length_const (fun xx =>
        [img.getPixel xx yy / 2 ^ 16 % 256, img.getPixel xx yy / 2 ^ 8 % 256,
          img.getPixel xx yy % 256]) 3 (fun _ => rfl), List.length_range]
  refine ⟨?_, ?_, ?_⟩
  · unfold ximage_to_rgb
    rw [flatMap_length_const _ (3 * img.width) hg, List.length_range]
    ring
  · intro x y hx hy
    unfold ximage_to_rgb
    rw [show (y * img.width + x) * 3 = (3 * img.width) * y + 3 * x from by ring]
    rw [flatMap_range_chunk _ (3 * img.width) hg img.height y (3 * x) 3 hy (by omega)]
    have h2 := flatMap_range_chunk (fun xx =>
        [img.getPixel xx y / 2 ^ 16 % 256, img.getPixel xx y / 2 ^ 8 % 256,
         img.getPixel xx y % 256]) 3 (fun _ => rfl) img.width x 0 3 hx (by omega)
    simpa using h2
  · intro img2 hw hh hp
    unfold ximage_to_rgb
    rw [hw, hh]
    congr 1
    funext yy
    congr 1
    funext xx
    rw [hp]

theorem ximage_to_rgb_spec_witness :
    (ximage_to_rgb sampleImage).length = sampleImage.width * sampleImage.height * 3 ∧
    ((ximage_to_rgb sampleImage).drop ((0 * sampleImage.width + 1) * 3)).take 3
      = [sampleImage.getPixel 1 0 / 2 ^ 16 % 256, sampleImage.getPixel 1 0 / 2 ^ 8 % 256,
         sampleImage.getPixel 1 0 % 256] :=
  ⟨(ximage_to_rgb_spec sampleImage).1,
   (ximage_to_rgb_spec sampleImage).2.1 1 0 (by decide) (by decide)⟩
